import Mathlib

/-!
Verification development for the card-management demo (study-react19).

The TypeScript sources are shallowly embedded: the pure parts of the
component logic (the useOptimistic reducers, the projection, the
reconciliation effects, the route handlers, the pagination window) become
Lean functions; JS nullable strings become Option String; JS truthiness
checks are made explicit.  The component state machine of CardManager is
embedded as explicit state records plus a step relation.
-/

namespace Study19

/-- Card entity (the CardData type of the app): id, title, description,
optional iconUrl, color. -/
structure CardData where
  id : String
  title : String
  description : String
  iconUrl : Option String := none
  color : String
deriving DecidableEq

/-- JS truthiness test of a possibly-null string: null and the empty
string are the falsy cases. -/
def jsFalsy : Option String → Bool
  | none => true
  | some s => s == ""

/-- JS (a or-else d) on a possibly-null string with a string default,
as in (color or-else "#000000"). -/
def jsOr (o : Option String) (d : String) : String :=
  if jsFalsy o then d else o.getD d

/-- JS (a or-else undefined), as in (iconUrl or-else undefined): an empty
string is normalized to an absent value. -/
def jsOrUndef (o : Option String) : Option String :=
  if jsFalsy o then none else o

/-- TS id.startsWith of the transient marker "temp-", embedded at the
character level of the string. -/
def isTempId (s : String) : Bool :=
  "temp-".data.isPrefixOf s.data

/-- A speculative mutation dispatched to a useOptimistic reducer.  The
switch in the source matches the string tag "create" or "delete" and has a
defensive default branch for any other tag, embedded as unknownM. -/
inductive SpecMutation where
  | createM (entity : CardData)
  | deleteM (id : String)
  | unknownM
deriving DecidableEq

/-- useOptimistic reducer of variant A (CardManager.tsx lines 116-128):
create appends the payload entity, delete filters by id, the default
branch returns the state unchanged. -/
def reducerA (state : List CardData) : SpecMutation → List CardData
  | SpecMutation.createM e => state ++ [e]
  | SpecMutation.deleteM i => state.filter (fun card => !(card.id == i))
  | SpecMutation.unknownM => state

/-- useOptimistic reducer of variant B (CardManager.tsx lines 519-532):
create appends the payload entity, but delete keeps the state unchanged
(the card stays visible while its deletion is pending), and the default
branch returns the state unchanged. -/
def reducerB (state : List CardData) : SpecMutation → List CardData
  | SpecMutation.createM e => state ++ [e]
  | SpecMutation.deleteM _ => state
  | SpecMutation.unknownM => state

/-- Component state of CardManager variant A: the entity store (cards)
plus the queue of in-flight speculative mutations held by useOptimistic. -/
structure ManagerStateA where
  cards : List CardData
  pending : List SpecMutation
deriving DecidableEq

/-- The optimistic projection: the derived list recomputed from the store
and the queued speculative mutations (what useOptimistic renders). -/
def projectionA (s : ManagerStateA) : List CardData :=
  s.pending.foldl reducerA s.cards

/-- The body of the POST request built by createCardAction: trimmed title
and description, normalized iconUrl, defaulted color. -/
structure PostBody where
  title : String
  description : String
  iconUrl : Option String
  color : String
deriving DecidableEq

/-- Outcome of createCardAction up to the network boundary: either the
validation short-circuit (no fetch is performed) or exactly one fetch
carrying the given body. -/
inductive CreateOutcome where
  | validationError
  | submitted (body : PostBody)
deriving DecidableEq

/-- createCardAction (actions.ts lines 32-74) up to the network boundary:
it checks the raw (untrimmed) title and description for JS truthiness and
otherwise performs one fetch whose body holds the trimmed values. -/
def createCardActionRequest (title description iconUrl color : Option String) :
    CreateOutcome :=
  if jsFalsy title || jsFalsy description then CreateOutcome.validationError
  else
    CreateOutcome.submitted
      { title := (title.getD "").trim
        description := (description.getD "").trim
        iconUrl := jsOrUndef iconUrl
        color := jsOr color "#000000" }

/-- The transient card synthesized by handleCreateCard: a "temp-" id from
the current timestamp and JS or-else defaults for the form fields. -/
def mkOptimisticCard (title description color : Option String) (now : Nat) :
    CardData :=
  { id := "temp-" ++ Nat.repr now
    title := jsOr title ""
    description := jsOr description ""
    iconUrl := none
    color := jsOr color "#000000" }

/-- handleCreateCard (CardManager.tsx lines 147-171): unconditionally
synthesizes a transient card, enqueues the speculative create mutation on
the optimistic projection, and invokes createCardAction with the same form
data (the create form has no iconUrl field, hence none). -/
def handleCreateCard (s : ManagerStateA) (title description color : Option String)
    (now : Nat) : ManagerStateA × CreateOutcome :=
  let card := mkOptimisticCard title description color now
  ({ s with pending := s.pending ++ [SpecMutation.createM card] },
   createCardActionRequest title description none color)

/-- useEffect on createState, success branch (CardManager.tsx lines 83-94
and 489-509): drop every transient card from the store and append the
confirmed card. -/
def reconcileCreateSuccess (prev : List CardData) (card : CardData) :
    List CardData :=
  prev.filter (fun c => !(isTempId c.id)) ++ [card]

/-- useEffect on createState, failure branch (CardManager.tsx lines 90-93):
drop every transient card from the store. -/
def reconcileCreateFailure (prev : List CardData) : List CardData :=
  prev.filter (fun c => !(isTempId c.id))

/-- Confirmed-delete store update, shared by the useEffect on deleteState
(variant A, lines 96-106) and the success branch of handleDeleteCard
(variant B, line 611): remove the cards whose id equals the deleted id. -/
def reconcileDeleteSuccess (prev : List CardData) (id : String) : List CardData :=
  prev.filter (fun c => !(c.id == id))

/-- Response of an API route: ok carries the HTTP status and the card of a
success payload, err carries the status and the error message of a
failure payload. -/
inductive ApiResponse where
  | ok (status : Nat) (card : CardData)
  | err (status : Nat) (error : String)
deriving DecidableEq

/-- The card the POST route synthesizes for a valid body: id from the
current timestamp, trimmed title and description, normalized iconUrl,
defaulted color. -/
def serverCard (title description iconUrl color : Option String) (now : Nat) :
    CardData :=
  { id := Nat.repr now
    title := (title.getD "").trim
    description := (description.getD "").trim
    iconUrl := jsOrUndef iconUrl
    color := jsOr color "#000000" }

/-- POST /cards route handler (actions.ts lines 192-225): missing or empty
title or description yields status 400 and an untouched store; otherwise
the new card is pushed onto the store and returned with status 201 and a
success payload. -/
def POST (title description iconUrl color : Option String) (now : Nat)
    (cards : List CardData) : List CardData × ApiResponse :=
  if jsFalsy title || jsFalsy description then
    (cards, ApiResponse.err 400 "제목과 설명은 필수입니다.")
  else
    (cards ++ [serverCard title description iconUrl color now],
     ApiResponse.ok 201 (serverCard title description iconUrl color now))

/-- cards.findIndex on the id followed by splice(index, 1): removes the
first card whose id matches and returns it with the remaining list. -/
def removeFirstById (id : String) : List CardData → Option (CardData × List CardData)
  | [] => none
  | c :: rest =>
    if c.id == id then some (c, rest)
    else (removeFirstById id rest).map (fun p => (p.1, c :: p.2))

/-- DELETE /cards route handler (actions.ts lines 228-263): a missing (or
empty, hence falsy) id query yields 400; an id whose card is not found
yields 404; otherwise the found card is spliced out and returned with
status 200 and a success payload. -/
def DELETE (idQuery : Option String) (cards : List CardData) :
    List CardData × ApiResponse :=
  if jsFalsy idQuery then (cards, ApiResponse.err 400 "카드 ID가 필요합니다.")
  else
    match removeFirstById (idQuery.getD "") cards with
    | none => (cards, ApiResponse.err 404 "카드를 찾을 수 없습니다.")
    | some (card, rest) => (rest, ApiResponse.ok 200 card)

/-- Component state of CardManager variant B: the entity store plus the
pendingOperations Set of ids, modelled as a duplicate-free list. -/
structure ManagerStateB where
  cards : List CardData
  pendingOps : List String
deriving DecidableEq

/-- JS Set add on the list model: a new element is appended, an element
already present leaves the set unchanged. -/
def setAdd (l : List String) (x : String) : List String :=
  if l.contains x then l else l ++ [x]

/-- JS Set delete on the list model. -/
def setDelete (l : List String) (x : String) : List String :=
  l.erase x

/-- handleDeleteCard (variant B, CardManager.tsx lines 596-623) observed
once the awaited deleteCardAction has settled with the given success flag:
the id is added to pendingOperations, the store is filtered only on
success, and the finally block removes the id again. -/
def handleDeleteCardRun (s : ManagerStateB) (cardId : String) (success : Bool) :
    ManagerStateB :=
  { cards :=
      if success then s.cards.filter (fun c => !(c.id == cardId)) else s.cards
    pendingOps := setDelete (setAdd s.pendingOps cardId) cardId }

/-- A rendered card of variant B: the entity together with the per-card
isPending flag computed by the displayCards mapping. -/
structure DisplayCard where
  card : CardData
  isPending : Bool
deriving DecidableEq

/-- displayCards (variant B, CardManager.tsx lines 534-538), in a settled
state where the optimistic list equals the store: each card is flagged
pending when its id is in pendingOperations or is transient. -/
def displayCardsB (s : ManagerStateB) : List DisplayCard :=
  s.cards.map (fun card =>
    { card := card
      isPending := s.pendingOps.contains card.id || isTempId card.id })

/-- CardItem (components/CardItem.tsx): the delete button is disabled by
isCardPending, which is the conjunction of the per-card pending flag and
the isPending prop the component receives. -/
def cardItemDisabled (cardIsPending isPendingProp : Bool) : Bool :=
  cardIsPending && isPendingProp

/-- One observable operation of the CardManager variant A state machine.
createSpec is the speculative step of handleCreateCard; the settle steps
apply the reconciliation effect to the store and drop the settled
mutation from the optimistic queue.  The card appended on a confirmed
create is the card the POST route synthesized. -/
inductive StepA : ManagerStateA → ManagerStateA → Prop where
  | createSpec (s : ManagerStateA) (title description color : Option String)
      (now : Nat) :
      StepA s (handleCreateCard s title description color now).1
  | createSuccess (s : ManagerStateA)
      (title description iconUrl color : Option String) (serverNow : Nat)
      (m : SpecMutation) :
      StepA s
        { cards :=
            reconcileCreateSuccess s.cards
              (serverCard title description iconUrl color serverNow)
          pending := s.pending.erase m }
  | createFailure (s : ManagerStateA) (m : SpecMutation) :
      StepA s
        { cards := reconcileCreateFailure s.cards, pending := s.pending.erase m }
  | deleteSpec (s : ManagerStateA) (id : String) :
      StepA s { s with pending := s.pending ++ [SpecMutation.deleteM id] }
  | deleteSuccess (s : ManagerStateA) (id : String) (m : SpecMutation) :
      StepA s
        { cards := reconcileDeleteSuccess s.cards id, pending := s.pending.erase m }
  | deleteFailure (s : ManagerStateA) (m : SpecMutation) :
      StepA s { s with pending := s.pending.erase m }

/-- States of CardManager variant A reachable from an initial render whose
server-provided cards carry no transient id, by any interleaving of the
operations. -/
inductive ReachableA : ManagerStateA → Prop where
  | init (cards : List CardData) (h : ∀ c ∈ cards, isTempId c.id = false) :
      ReachableA { cards := cards, pending := [] }
  | step (s s' : ManagerStateA) : ReachableA s → StepA s s' → ReachableA s'

/-- Tags the create mutations of the optimistic queue. -/
def isCreateM : SpecMutation → Bool
  | SpecMutation.createM _ => true
  | _ => false

/-- One entry of the pagination strip: a page number or an ellipsis. -/
inductive PageEntry where
  | num (n : Int)
  | dots
deriving DecidableEq

/-- The window of visible pages of generatePageNumbers: startPage and
endPage clamped to the page range, then widened toward the other border
when the clamping shrank the window below maxVisiblePages. -/
def pageWindow (currentPage totalPages maxVisiblePages : Int) : Int × Int :=
  let halfVisible := maxVisiblePages / 2
  let startPage0 := max 1 (currentPage - halfVisible)
  let endPage0 := min totalPages (currentPage + halfVisible)
  if endPage0 - startPage0 + 1 < maxVisiblePages then
    if startPage0 = 1 then
      (startPage0, min totalPages (startPage0 + maxVisiblePages - 1))
    else (max 1 (endPage0 - maxVisiblePages + 1), endPage0)
  else (startPage0, endPage0)

/-- The for loop of generatePageNumbers: the pages startPage through
endPage in increasing order (empty when the window is empty). -/
def windowPages (s e : Int) : List Int :=
  (List.range (e - s + 1).toNat).map (fun (k : Nat) => s + (k : Int))

/-- generatePageNumbers (Pagination.tsx lines 48-90): the pages of the
window, preceded by page 1 (with an ellipsis when there is a gap) when
the window starts after it, and followed by the last page (with an
ellipsis when there is a gap) when the window ends before it. -/
def generatePageNumbers (currentPage totalPages maxVisiblePages : Int) :
    List PageEntry :=
  let startPage := (pageWindow currentPage totalPages maxVisiblePages).1
  let endPage := (pageWindow currentPage totalPages maxVisiblePages).2
  (if startPage > 1 then
    [PageEntry.num 1] ++ (if startPage > 2 then [PageEntry.dots] else [])
  else []) ++
  (windowPages startPage endPage).map PageEntry.num ++
  (if endPage < totalPages then
    (if endPage < totalPages - 1 then [PageEntry.dots] else []) ++
      [PageEntry.num totalPages]
  else [])

/-- The Pagination component (default maxVisiblePages of 5): it renders
null when totalPages is at most 1, and otherwise a strip whose page
entries are those of generatePageNumbers. -/
def Pagination (currentPage totalPages : Int) : Option (List PageEntry) :=
  if totalPages ≤ 1 then none
  else some (generatePageNumbers currentPage totalPages 5)

/-- The page number carried by a strip entry, none for an ellipsis. -/
def entryNum : PageEntry → Option Int
  | PageEntry.num n => some n
  | PageEntry.dots => none

/-- The numeric entries of a pagination strip, in order. -/
def pageNums (l : List PageEntry) : List Int :=
  l.filterMap entryNum

/-- Shape of the digit-string accumulator: it either returns the
accumulator or a digit character followed by a tail. -/
theorem toDigitsCore_shape (b : Nat) (hb : 0 < b) (fuel : Nat) :
    ∀ (n : Nat) (ds : List Char),
      Nat.toDigitsCore b fuel n ds = ds ∨
      ∃ m t, m < b ∧ Nat.toDigitsCore b fuel n ds = Nat.digitChar m :: t := by
  induction fuel with
  | zero => intro n ds; left; rfl
  | succ fuel ih =>
    intro n ds
    by_cases h : n / b = 0
    · right
      exact ⟨n % b, ds, Nat.mod_lt n hb, by simp [Nat.toDigitsCore, h]⟩
    · have hstep :
          Nat.toDigitsCore b (fuel + 1) n ds =
            Nat.toDigitsCore b fuel (n / b) (Nat.digitChar (n % b) :: ds) := by
        simp [Nat.toDigitsCore, h]
      rcases ih (n / b) (Nat.digitChar (n % b) :: ds) with heq | ⟨m, t, hm, heq⟩
      · right
        exact ⟨n % b, ds, Nat.mod_lt n hb, by rw [hstep, heq]⟩
      · right
        exact ⟨m, t, hm, by rw [hstep, heq]⟩

/-- The decimal rendering of a number is empty or begins with a digit
character. -/
theorem repr_data_shape (n : Nat) :
    (Nat.repr n).data = [] ∨
    ∃ m t, m < 10 ∧ (Nat.repr n).data = Nat.digitChar m :: t := by
  have h : (Nat.repr n).data = Nat.toDigitsCore 10 (n + 1) n [] := rfl
  rw [h]
  exact toDigitsCore_shape 10 (by omega) (n + 1) n []

/-- A server-generated id, the decimal rendering of the timestamp, never
carries the transient marker. -/
theorem isTempId_repr (n : Nat) : isTempId (Nat.repr n) = false := by
  unfold isTempId
  have hlit : "temp-".data = 't' :: ['e', 'm', 'p', '-'] := rfl
  rcases repr_data_shape n with h | ⟨m, t, hm, h⟩
  · rw [h, hlit]
    rfl
  · rw [h, hlit]
    have hd : ('t' == Nat.digitChar m) = false := by
      have hall : ∀ k : Nat, k < 10 → ('t' == Nat.digitChar k) = false := by decide
      exact hall m hm
    simp [List.isPrefixOf, hd]

/-- A concrete card used by the concrete counterexamples. -/
def cardOne : CardData :=
  { id := "1", title := "X", description := "D", iconUrl := none, color := "#000000" }

/-- C2 counterexample: the variant B reducer does not remove the entity
whose id equals the delete payload, so the claimed delete clause fails on
the base list holding exactly the card with id "1". -/
theorem c2_counterexample :
    reducerB [cardOne] (SpecMutation.deleteM "1") ≠
      [cardOne].filter (fun c => !(c.id == "1")) := by
  decide

/-- C2 amended: the variant A reducer appends on create, removes exactly
the entities whose id equals the delete payload while preserving the
order of the rest, and returns the base list unchanged on an unknown
kind; the variant B reducer appends on create and returns the base list
unchanged on delete and on an unknown kind. -/
theorem c2_reducers (state : List CardData) (e : CardData) (i : String) :
    reducerA state (SpecMutation.createM e) = state ++ [e] ∧
    reducerA state (SpecMutation.deleteM i) =
      state.filter (fun c => !(c.id == i)) ∧
    (∀ c ∈ reducerA state (SpecMutation.deleteM i), c.id ≠ i) ∧
    (∀ c ∈ state, c.id ≠ i → c ∈ reducerA state (SpecMutation.deleteM i)) ∧
    reducerA state SpecMutation.unknownM = state ∧
    reducerB state (SpecMutation.createM e) = state ++ [e] ∧
    reducerB state (SpecMutation.deleteM i) = state ∧
    reducerB state SpecMutation.unknownM = state := by
  refine ⟨rfl, rfl, ?_, ?_, rfl, rfl, rfl, rfl⟩
  · intro c hc
    have := List.of_mem_filter hc
    simpa using this
  · intro c hc hne
    refine List.mem_filter.mpr ⟨hc, ?_⟩
    simpa using hne

/-- C2 witness: the amended reducer laws at a concrete state and payloads. -/
theorem c2_reducers_witness :
    reducerA [cardOne] (SpecMutation.deleteM "1") =
      [cardOne].filter (fun c => !(c.id == "1")) ∧
    reducerB [cardOne] (SpecMutation.deleteM "1") = [cardOne] :=
  ⟨(c2_reducers [cardOne] cardOne "1").2.1,
   (c2_reducers [cardOne] cardOne "1").2.2.2.2.2.2.1⟩

/-- C1 counterexample: submitting a create with an empty title makes the
action return the validation error without reaching the backend, yet the
coordinator has already applied the speculative create mutation, so the
projection right after the attempt differs from the projection before
it. -/
theorem c1_counterexample :
    (handleCreateCard { cards := [], pending := [] }
        (some "") (some "desc") none 0).2 = CreateOutcome.validationError ∧
    projectionA (handleCreateCard { cards := [], pending := [] }
        (some "") (some "desc") none 0).1 ≠
      projectionA { cards := [], pending := [] } := by
  constructor
  · rfl
  · decide

/-- C1 amended: on a create whose title or description is empty the
backend is never called (the action short-circuits with the validation
error), but the speculative transient card has already been appended to
the projection; only after the failed action settles and the speculative
entry is dropped does the projection coincide with the pre-attempt store
again. -/
theorem c1_amended (s : ManagerStateA) (title description color : Option String)
    (now : Nat) (hBlank : (jsFalsy title || jsFalsy description) = true) :
    (handleCreateCard s title description color now).2 =
      CreateOutcome.validationError ∧
    projectionA (handleCreateCard s title description color now).1 =
      projectionA s ++ [mkOptimisticCard title description color now] ∧
    ((∀ c ∈ s.cards, isTempId c.id = false) →
      projectionA { cards := reconcileCreateFailure s.cards, pending := [] } =
        projectionA { cards := s.cards, pending := [] }) := by
  refine ⟨?_, ?_, ?_⟩
  · simp [handleCreateCard, createCardActionRequest, hBlank]
  · simp [handleCreateCard, projectionA, List.foldl_append, reducerA]
  · intro hno
    show reconcileCreateFailure s.cards = s.cards
    unfold reconcileCreateFailure
    apply List.filter_eq_self.mpr
    intro c hc
    simp [hno c hc]

/-- C1 amended witness: the empty-title attempt at a concrete state is
answered by the validation error, with no submission. -/
theorem c1_amended_witness :
    (handleCreateCard { cards := [cardOne], pending := [] }
        (some "") (some "desc") none 0).2 = CreateOutcome.validationError :=
  (c1_amended { cards := [cardOne], pending := [] }
    (some "") (some "desc") none 0 (by decide)).1

/-- C3: reconciling a confirmed create rewrites the store to the previous
store with every transient card removed and the confirmed card appended;
the result holds exactly one card with the confirmed id and the projection
recomputed from it holds no transient id. -/
theorem c3_create_reconciliation (prev : List CardData) (card : CardData)
    (hTemp : isTempId card.id = false)
    (hFresh : ∀ c ∈ prev, c.id ≠ card.id) :
    reconcileCreateSuccess prev card =
      prev.filter (fun c => !(isTempId c.id)) ++ [card] ∧
    (reconcileCreateSuccess prev card).countP (fun c => c.id == card.id) = 1 ∧
    ∀ c ∈ projectionA { cards := reconcileCreateSuccess prev card, pending := [] },
      isTempId c.id = false := by
  refine ⟨rfl, ?_, ?_⟩
  · unfold reconcileCreateSuccess
    rw [List.countP_append]
    have h0 : (prev.filter (fun c => !(isTempId c.id))).countP
        (fun c => c.id == card.id) = 0 := by
      apply List.countP_eq_zero.mpr
      intro c hc
      have hmem := List.mem_of_mem_filter hc
      simp [hFresh c hmem]
    rw [h0]
    simp
  · intro c hc
    have hc' : c ∈ reconcileCreateSuccess prev card := hc
    unfold reconcileCreateSuccess at hc'
    rcases List.mem_append.mp hc' with h | h
    · have := List.of_mem_filter h
      simpa using this
    · have heq : c = card := by simpa using h
      rw [heq]
      exact hTemp

/-- A transient card used by the concrete inputs. -/
def cardTemp : CardData :=
  { id := "temp-0", title := "T", description := "D", iconUrl := none,
    color := "#000000" }

/-- A confirmed server card used by the concrete inputs. -/
def cardServer : CardData :=
  { id := "2", title := "A", description := "B", iconUrl := none,
    color := "#000000" }

/-- C3 witness: reconciling a confirmed create over a store holding one
transient and one confirmed card. -/
theorem c3_witness :
    reconcileCreateSuccess [cardTemp, cardOne] cardServer =
      [cardTemp, cardOne].filter (fun c => !(isTempId c.id)) ++ [cardServer] :=
  (c3_create_reconciliation [cardTemp, cardOne] cardServer
    (by decide) (by decide)).1

/-- C4: reconciling a confirmed delete filters exactly the cards with the
deleted id out of the store, the id is gone from the recomputed
projection, every other card is preserved, and the variant B success
branch performs the same store update. -/
theorem c4_delete_reconciliation (prev : List CardData) (id : String)
    (pend : List String) (hMem : id ∈ prev.map CardData.id) :
    reconcileDeleteSuccess prev id = prev.filter (fun c => !(c.id == id)) ∧
    id ∉ (reconcileDeleteSuccess prev id).map CardData.id ∧
    (∀ c ∈ prev, c.id ≠ id → c ∈ reconcileDeleteSuccess prev id) ∧
    (∀ c ∈ projectionA { cards := reconcileDeleteSuccess prev id, pending := [] },
      c.id ≠ id) ∧
    (handleDeleteCardRun { cards := prev, pendingOps := pend } id true).cards =
      reconcileDeleteSuccess prev id := by
  refine ⟨rfl, ?_, ?_, ?_, rfl⟩
  · intro hmem
    rcases List.mem_map.mp hmem with ⟨c, hc, hid⟩
    have := List.of_mem_filter hc
    rw [hid] at this
    simp at this
  · intro c hc hne
    refine List.mem_filter.mpr ⟨hc, ?_⟩
    simpa using hne
  · intro c hc
    have hc' : c ∈ reconcileDeleteSuccess prev id := hc
    have := List.of_mem_filter hc'
    simpa using this

/-- C4 witness: deleting the only card of a concrete store. -/
theorem c4_witness :
    reconcileDeleteSuccess [cardOne] "1" =
      [cardOne].filter (fun c => !(c.id == "1")) ∧
    "1" ∉ (reconcileDeleteSuccess [cardOne] "1").map CardData.id :=
  ⟨(c4_delete_reconciliation [cardOne] "1" [] (by decide)).1,
   (c4_delete_reconciliation [cardOne] "1" [] (by decide)).2.1⟩

/-- Adding an id to the duplicate-free pending set and deleting it in the
finally block leaves a set without that id. -/
theorem setDelete_setAdd_not_mem (l : List String) (x : String) (h : l.Nodup) :
    x ∉ setDelete (setAdd l x) x := by
  have hnd : (setAdd l x).Nodup := by
    by_cases hx : x ∈ l
    · simpa [setAdd, List.contains, List.elem_eq_mem, hx] using h
    · have hrw : setAdd l x = l ++ [x] := by
        simp [setAdd, List.contains, List.elem_eq_mem, hx]
      rw [hrw]
      exact List.nodup_append.mpr
        ⟨h, List.nodup_singleton x, by
          intro a ha hb
          have hax : a = x := by simpa using hb
          exact hx (hax ▸ ha)⟩
  exact List.Nodup.not_mem_erase hnd

/-- C5: a delete the backend rejects leaves the store unchanged, the card
is still present, the rendered projection shows it with the pending flag
cleared, and the CardItem delete control computed from a cleared flag is
not disabled. -/
theorem c5_delete_rollback (s : ManagerStateB) (card : CardData)
    (hMem : card ∈ s.cards) (hTemp : isTempId card.id = false)
    (hNodup : s.pendingOps.Nodup) :
    (handleDeleteCardRun s card.id false).cards = s.cards ∧
    card ∈ (handleDeleteCardRun s card.id false).cards ∧
    { card := card, isPending := false } ∈
      displayCardsB (handleDeleteCardRun s card.id false) ∧
    (∀ transitionPending : Bool,
      cardItemDisabled false (false || transitionPending) = false) := by
  have hcards : (handleDeleteCardRun s card.id false).cards = s.cards := rfl
  refine ⟨hcards, hcards ▸ hMem, ?_, ?_⟩
  · have hnot : card.id ∉ setDelete (setAdd s.pendingOps card.id) card.id :=
      setDelete_setAdd_not_mem s.pendingOps card.id hNodup
    have hcont :
        (setDelete (setAdd s.pendingOps card.id) card.id).contains card.id = false := by
      simp only [List.contains, List.elem_eq_mem]
      exact decide_eq_false hnot
    refine List.mem_map.mpr ⟨card, hMem, ?_⟩
    simp [handleDeleteCardRun, hcont, hTemp, hnot]
  · intro b
    rfl

/-- C5 witness: the rejected delete of the concrete card with id "1". -/
theorem c5_witness :
    (handleDeleteCardRun { cards := [cardOne], pendingOps := [] }
        cardOne.id false).cards = [cardOne] ∧
    { card := cardOne, isPending := false } ∈
      displayCardsB (handleDeleteCardRun { cards := [cardOne], pendingOps := [] }
        cardOne.id false) :=
  ⟨(c5_delete_rollback { cards := [cardOne], pendingOps := [] } cardOne
      (by decide) (by decide) (by decide)).1,
   (c5_delete_rollback { cards := [cardOne], pendingOps := [] } cardOne
      (by decide) (by decide) (by decide)).2.2.1⟩

/-- Folding the optimistic queue over a base list adds at most one
transient card per queued create mutation. -/
theorem countP_foldl_reducerA (pending : List SpecMutation) :
    ∀ cards : List CardData,
      (pending.foldl reducerA cards).countP (fun c => isTempId c.id) ≤
        cards.countP (fun c => isTempId c.id) + pending.countP isCreateM := by
  induction pending with
  | nil => intro cards; simp
  | cons m rest ih =>
    intro cards
    have hstep : (m :: rest).foldl reducerA cards =
        rest.foldl reducerA (reducerA cards m) := rfl
    rw [hstep]
    have h1 := ih (reducerA cards m)
    have h2 : (reducerA cards m).countP (fun c => isTempId c.id) ≤
        cards.countP (fun c => isTempId c.id) + (if isCreateM m then 1 else 0) := by
      cases m with
      | createM e =>
        have he : List.countP (fun c => isTempId c.id) [e] ≤ 1 := by
          by_cases ht : isTempId e.id = true
          · simp [List.countP_cons, ht]
          · rw [Bool.not_eq_true] at ht
            simp [List.countP_cons, ht]
        have happ : (reducerA cards (SpecMutation.createM e)).countP
            (fun c => isTempId c.id) =
            cards.countP (fun c => isTempId c.id) +
              List.countP (fun c => isTempId c.id) [e] := by
          simp [reducerA]
        have hone : (if isCreateM (SpecMutation.createM e) then 1 else 0) = 1 := rfl
        omega
      | deleteM i =>
        have hsub : (cards.filter (fun card => !(card.id == i))).countP
            (fun c => isTempId c.id) ≤ cards.countP (fun c => isTempId c.id) :=
          List.Sublist.countP_le _ (List.filter_sublist cards)
        simpa [reducerA, isCreateM] using hsub
      | unknownM => simp [reducerA, isCreateM]
    have h3 : (m :: rest).countP isCreateM =
        rest.countP isCreateM + (if isCreateM m then 1 else 0) := by
      rw [List.countP_cons]
    omega

/-- No reachable store of the variant A manager holds a transient card:
the speculative steps leave the store alone, the create reconciliations
filter the transient cards out and append only a server card whose id is
a decimal timestamp, and the delete paths only filter. -/
theorem reachableA_store_no_temp (s : ManagerStateA) (h : ReachableA s) :
    ∀ c ∈ s.cards, isTempId c.id = false := by
  induction h with
  | init cards hc => exact hc
  | step s s' hr hst ih =>
    cases hst with
    | createSpec title description color now => exact ih
    | createSuccess title description iconUrl color serverNow m =>
      intro c hc
      rcases List.mem_append.mp hc with h1 | h1
      · have := List.of_mem_filter h1
        simpa using this
      · have hcs : c = serverCard title description iconUrl color serverNow := by
          simpa using h1
        rw [hcs]
        exact isTempId_repr serverNow
    | createFailure m =>
      intro c hc
      have := List.of_mem_filter hc
      simpa using this
    | deleteSpec id => exact ih
    | deleteSuccess id m =>
      intro c hc
      exact ih c (List.mem_of_mem_filter hc)
    | deleteFailure m => exact ih

/-- C6: in every reachable state of the variant A manager the store holds
no card with a transient id, and the projection holds at most one
transient card per queued create mutation. -/
theorem c6_invariant (s : ManagerStateA) (h : ReachableA s) :
    (∀ c ∈ s.cards, isTempId c.id = false) ∧
    (projectionA s).countP (fun c => isTempId c.id) ≤
      s.pending.countP isCreateM := by
  have hstore := reachableA_store_no_temp s h
  refine ⟨hstore, ?_⟩
  have hb := countP_foldl_reducerA s.pending s.cards
  have hz : s.cards.countP (fun c => isTempId c.id) = 0 :=
    List.countP_eq_zero.mpr (by intro a ha; simp [hstore a ha])
  unfold projectionA
  omega

/-- C6 witness: the transient-count bound at the reachable state produced
by one speculative create over a clean initial store. -/
theorem c6_witness :
    (projectionA (handleCreateCard { cards := [cardOne], pending := [] }
        (some "T") (some "D") none 7).1).countP (fun c => isTempId c.id) ≤
      (handleCreateCard { cards := [cardOne], pending := [] }
        (some "T") (some "D") none 7).1.pending.countP isCreateM :=
  (c6_invariant _
    (ReachableA.step _ _ (ReachableA.init [cardOne] (by decide))
      (StepA.createSpec { cards := [cardOne], pending := [] }
        (some "T") (some "D") none 7))).2

/-- C7 counterexample: a whitespace-only title passes the truthiness
validation of createCardAction, so the attempt does not fail with the
validation error and a network submission is performed, carrying the
trimmed title. -/
theorem c7_counterexample :
    createCardActionRequest (some " ") (some "desc") none none ≠
      CreateOutcome.validationError ∧
    createCardActionRequest (some " ") (some "desc") none none =
      CreateOutcome.submitted
        { title := " ".trim, description := "desc".trim, iconUrl := none,
          color := "#000000" } := by
  constructor
  · decide
  · rfl

/-- C7 amended: the coordinator validates only that the raw title and
description are non-null and non-empty; trimming applies only to the
submitted body.  A value that trims to empty therefore passes the client
validation, is submitted over the network, and is rejected by the backend
with the 400 validation error. -/
theorem c7_amended (title description iconUrl color : Option String) :
    (createCardActionRequest title description iconUrl color =
        CreateOutcome.validationError ↔
      (jsFalsy title || jsFalsy description) = true) ∧
    ((jsFalsy title || jsFalsy description) = false →
      createCardActionRequest title description iconUrl color =
        CreateOutcome.submitted
          { title := (title.getD "").trim
            description := (description.getD "").trim
            iconUrl := jsOrUndef iconUrl
            color := jsOr color "#000000" }) ∧
    ((jsFalsy title || jsFalsy description) = false →
      ((title.getD "").trim = "" ∨ (description.getD "").trim = "") →
      ∀ (now : Nat) (cards : List CardData),
        POST (some ((title.getD "").trim)) (some ((description.getD "").trim))
          (jsOrUndef iconUrl) (some (jsOr color "#000000")) now cards =
          (cards, ApiResponse.err 400 "제목과 설명은 필수입니다.")) := by
  by_cases hb : (jsFalsy title || jsFalsy description) = true
  · refine ⟨?_, ?_, ?_⟩
    · simp [createCardActionRequest, hb]
    · intro hfalse
      rw [hb] at hfalse
      cases hfalse
    · intro hfalse
      rw [hb] at hfalse
      cases hfalse
  · have hb' : (jsFalsy title || jsFalsy description) = false := by
      rwa [Bool.not_eq_true] at hb
    refine ⟨?_, ?_, ?_⟩
    · simp [createCardActionRequest, hb']
    · intro _
      simp [createCardActionRequest, hb']
    · intro _ hdisj now cards
      rcases hdisj with h | h
      · simp [POST, jsFalsy, h]
      · simp [POST, jsFalsy, h]

/-- C7 amended witness: the whitespace-only title at concrete inputs is
validated successfully and submitted with the trimmed body. -/
theorem c7_amended_witness :
    createCardActionRequest (some " ") (some "desc") none none =
      CreateOutcome.submitted
        { title := ((some " ").getD "").trim
          description := ((some "desc").getD "").trim
          iconUrl := jsOrUndef none
          color := jsOr none "#000000" } :=
  (c7_amended (some " ") (some "desc") none none).2.1 (by decide)

/-- C8: the POST route answers a missing or empty title or description
with 400 and an untouched store, and otherwise appends exactly the new
card (generated id, trimmed title and description, defaulted color when
absent) to the end of the store, answering 201 with a success payload. -/
theorem c8_post (title description iconUrl color : Option String) (now : Nat)
    (cards : List CardData) :
    ((jsFalsy title || jsFalsy description) = true →
      POST title description iconUrl color now cards =
        (cards, ApiResponse.err 400 "제목과 설명은 필수입니다.")) ∧
    ((jsFalsy title || jsFalsy description) = false →
      POST title description iconUrl color now cards =
        (cards ++ [serverCard title description iconUrl color now],
         ApiResponse.ok 201 (serverCard title description iconUrl color now)) ∧
      (serverCard title description iconUrl color now).id = Nat.repr now ∧
      (serverCard title description iconUrl color now).title =
        (title.getD "").trim ∧
      (serverCard title description iconUrl color now).description =
        (description.getD "").trim ∧
      (color = none →
        (serverCard title description iconUrl color now).color = "#000000")) := by
  constructor
  · intro hb
    simp [POST, hb]
  · intro hb
    refine ⟨by simp [POST, hb], rfl, rfl, rfl, ?_⟩
    intro hcnone
    simp [serverCard, jsOr, jsFalsy, hcnone]

/-- C8 witness: the scenario of the spec, creating title "A" and
description "B" over the empty store. -/
theorem c8_post_witness :
    POST (some "A") (some "B") none none 5 [] =
      ([serverCard (some "A") (some "B") none none 5],
       ApiResponse.ok 201 (serverCard (some "A") (some "B") none none 5)) ∧
    (serverCard (some "A") (some "B") none none 5).color = "#000000" :=
  ⟨by
    have h := ((c8_post (some "A") (some "B") none none 5 []).2 (by decide)).1
    simpa using h,
   ((c8_post (some "A") (some "B") none none 5 []).2 (by decide)).2.2.2.2 rfl⟩

/-- findIndex finds nothing exactly when no card bears the id. -/
theorem removeFirstById_eq_none (id : String) (cards : List CardData)
    (h : ∀ c ∈ cards, c.id ≠ id) : removeFirstById id cards = none := by
  induction cards with
  | nil => rfl
  | cons c rest ih =>
    have hc : (c.id == id) = false := by
      simp [h c (List.mem_cons_self c rest)]
    have htail : removeFirstById id rest = none :=
      ih (fun x hx => h x (List.mem_cons_of_mem c hx))
    simp [removeFirstById, hc, htail]

/-- When exactly one card bears the id, the splice removes precisely that
card: it is returned and the remainder is the filtered store. -/
theorem removeFirstById_unique (id : String) (cards : List CardData)
    (h : cards.countP (fun c => c.id == id) = 1) :
    ∃ c rest, removeFirstById id cards = some (c, rest) ∧ c.id = id ∧
      c ∈ cards ∧ rest = cards.filter (fun x => !(x.id == id)) := by
  induction cards with
  | nil => simp at h
  | cons c t ih =>
    by_cases hc : (c.id == id) = true
    · have hid : c.id = id := by simpa using hc
      rw [List.countP_cons] at h
      simp [hc] at h
      refine ⟨c, t, by simp [removeFirstById, hc], hid,
        List.mem_cons_self c t, ?_⟩
      rw [List.filter_cons]
      simp only [hc, Bool.not_true, Bool.false_eq_true, if_false]
      exact (List.filter_eq_self.mpr (fun x hx => by simp [h x hx])).symm
    · have hcf : (c.id == id) = false := by rwa [Bool.not_eq_true] at hc
      have h' : t.countP (fun x => x.id == id) = 1 := by
        rw [List.countP_cons] at h
        simp [hcf] at h
        omega
      rcases ih h' with ⟨d, rest, heq, hdid, hdm, hrest⟩
      refine ⟨d, c :: rest, by simp [removeFirstById, hcf, heq], hdid,
        List.mem_cons_of_mem c hdm, ?_⟩
      rw [List.filter_cons]
      simp only [hcf, Bool.not_false, if_true]
      rw [hrest]

/-- C9: the DELETE route answers a missing id with 400 and an untouched
store, an id borne by no card with 404 and an untouched store, and an id
borne by exactly one card by removing that card (preserving the order of
the rest) and answering 200 with the removed card in a success payload. -/
theorem c9_delete (id : String) (cards : List CardData) :
    DELETE none cards = (cards, ApiResponse.err 400 "카드 ID가 필요합니다.") ∧
    (id ≠ "" → (∀ c ∈ cards, c.id ≠ id) →
      DELETE (some id) cards =
        (cards, ApiResponse.err 404 "카드를 찾을 수 없습니다.")) ∧
    (id ≠ "" → cards.countP (fun c => c.id == id) = 1 →
      (DELETE (some id) cards).1 = cards.filter (fun c => !(c.id == id)) ∧
      ∃ c, c ∈ cards ∧ c.id = id ∧
        (DELETE (some id) cards).2 = ApiResponse.ok 200 c) := by
  refine ⟨rfl, ?_, ?_⟩
  · intro hne hnone
    have hrm := removeFirstById_eq_none id cards hnone
    have hfalsy : jsFalsy (some id) = false := by simp [jsFalsy, hne]
    simp [DELETE, hfalsy, hrm]
  · intro hne hcount
    rcases removeFirstById_unique id cards hcount with ⟨c, rest, heq, hcid, hcm, hrest⟩
    have hfalsy : jsFalsy (some id) = false := by simp [jsFalsy, hne]
    constructor
    · simp [DELETE, hfalsy, heq, hrest]
    · exact ⟨c, hcm, hcid, by simp [DELETE, hfalsy, heq]⟩

/-- C9 witness: the deletion of the only card of a concrete store. -/
theorem c9_witness :
    (DELETE (some "1") [cardOne]).1 =
      [cardOne].filter (fun c => !(c.id == "1")) :=
  ((c9_delete "1" [cardOne]).2.2 (by decide) (by decide)).1

/-- Bounds of the visible window for the default maxVisiblePages of 5:
it stays inside the page range, contains the current page, and spans at
most five pages. -/
theorem pageWindow_spec (c t : Int) (h2 : 2 ≤ t) (hlo : 1 ≤ c) (hhi : c ≤ t) :
    1 ≤ (pageWindow c t 5).1 ∧ (pageWindow c t 5).1 ≤ c ∧
    c ≤ (pageWindow c t 5).2 ∧ (pageWindow c t 5).2 ≤ t ∧
    (pageWindow c t 5).2 - (pageWindow c t 5).1 + 1 ≤ 5 := by
  have h52 : (5 : Int) / 2 = 2 := by decide
  simp only [pageWindow, h52]
  split_ifs with h1 hst <;>
    exact ⟨by dsimp only; omega, by dsimp only; omega, by dsimp only; omega,
      by dsimp only; omega, by dsimp only; omega⟩

/-- The window pages are strictly increasing. -/
theorem windowPages_pairwise (s e : Int) :
    (windowPages s e).Pairwise (· < ·) := by
  refine List.Pairwise.map _ ?_ (List.pairwise_lt_range _)
  intro a b hab
  omega

/-- A window page lies between the window bounds. -/
theorem mem_windowPages (s e x : Int) (hx : x ∈ windowPages s e) :
    s ≤ x ∧ x ≤ e := by
  rcases List.mem_map.mp hx with ⟨k, hk, hkx⟩
  have hk' := List.mem_range.mp hk
  omega

/-- Every page between the window bounds is a window page. -/
theorem self_mem_windowPages (s e x : Int) (hs : s ≤ x) (he : x ≤ e) :
    x ∈ windowPages s e :=
  List.mem_map.mpr ⟨(x - s).toNat, List.mem_range.mpr (by omega), by omega⟩

/-- The window spans as many pages as its width. -/
theorem windowPages_length (s e : Int) :
    (windowPages s e).length = (e - s + 1).toNat := by
  simp [windowPages]

/-- Extracting the numbers back out of a list of numeric entries is the
identity. -/
theorem filterMap_entryNum_num (l : List Int) :
    l.filterMap (entryNum ∘ PageEntry.num) = l := by
  induction l with
  | nil => rfl
  | cons x xs ih => simp [List.filterMap_cons, entryNum, Function.comp, ih]

/-- The numeric entries of the strip: the optional leading 1, the window
pages, the optional trailing last page; the ellipses are dropped. -/
theorem pageNums_generate (c t m : Int) :
    pageNums (generatePageNumbers c t m) =
      (if (pageWindow c t m).1 > 1 then [(1 : Int)] else []) ++
      windowPages (pageWindow c t m).1 (pageWindow c t m).2 ++
      (if (pageWindow c t m).2 < t then [t] else []) := by
  unfold generatePageNumbers pageNums
  simp only [List.filterMap_append, List.filterMap_map]
  split_ifs <;>
    simp [entryNum, List.filterMap_cons, filterMap_entryNum_num]

/-- Strict increase of an optional head, the window pages, and an
optional tail, when the head lies below the window and the tail above
it. -/
theorem pairwise_window (s e : Int) (lead trail : List Int)
    (hl : ∀ a ∈ lead, a < s) (ht : ∀ a ∈ trail, e < a)
    (hlp : lead.Pairwise (· < ·)) (htp : trail.Pairwise (· < ·))
    (hse : s ≤ e) :
    (lead ++ windowPages s e ++ trail).Pairwise (· < ·) := by
  rw [List.pairwise_append]
  refine ⟨?_, htp, ?_⟩
  · rw [List.pairwise_append]
    refine ⟨hlp, windowPages_pairwise s e, ?_⟩
    intro a ha b hb
    have hb' := mem_windowPages s e b hb
    have ha' := hl a ha
    omega
  · intro a ha b hb
    have hb' := ht b hb
    rcases List.mem_append.mp ha with h | h
    · have := hl a h
      omega
    · have := mem_windowPages s e a h
      omega

/-- C10: with the default maxVisiblePages of 5 and a page range of at
least two pages, the numeric entries of the strip are strictly
increasing, lie between 1 and totalPages, include the current page, and
number at most maxVisiblePages + 2; the component renders null whenever
totalPages is at most 1. -/
theorem c10_pagination (currentPage totalPages : Int)
    (h2 : 2 ≤ totalPages) (hlo : 1 ≤ currentPage)
    (hhi : currentPage ≤ totalPages) :
    (pageNums (generatePageNumbers currentPage totalPages 5)).Pairwise (· < ·) ∧
    (∀ p ∈ pageNums (generatePageNumbers currentPage totalPages 5),
      1 ≤ p ∧ p ≤ totalPages) ∧
    currentPage ∈ pageNums (generatePageNumbers currentPage totalPages 5) ∧
    (pageNums (generatePageNumbers currentPage totalPages 5)).length ≤ 5 + 2 ∧
    (∀ (cp tp : Int), tp ≤ 1 → Pagination cp tp = none) := by
  obtain ⟨hs1, hsc, hce, het, hlen⟩ :=
    pageWindow_spec currentPage totalPages h2 hlo hhi
  rw [pageNums_generate]
  refine ⟨?_, ?_, ?_, ?_, ?_⟩
  · apply pairwise_window
    · intro a ha
      split_ifs at ha with h
      · have ha1 : a = 1 := by simpa using ha
        omega
      · simp at ha
    · intro a ha
      split_ifs at ha with h
      · have hat : a = totalPages := by simpa using ha
        omega
      · simp at ha
    · split_ifs <;> simp
    · split_ifs <;> simp
    · omega
  · intro p hp
    rcases List.mem_append.mp hp with h | h
    · rcases List.mem_append.mp h with h1 | h1
      · split_ifs at h1 with hif
        · have hp1 : p = 1 := by simpa using h1
          omega
        · simp at h1
      · have := mem_windowPages _ _ p h1
        omega
    · split_ifs at h with hif
      · have hpt : p = totalPages := by simpa using h
        omega
      · simp at h
  · apply List.mem_append.mpr
    left
    apply List.mem_append.mpr
    right
    exact self_mem_windowPages _ _ currentPage hsc hce
  · have hmidlen :
        (windowPages (pageWindow currentPage totalPages 5).1
          (pageWindow currentPage totalPages 5).2).length ≤ 5 := by
      rw [windowPages_length]
      omega
    simp only [List.length_append]
    split_ifs <;> simp <;> omega
  · intro cp tp htp
    simp [Pagination, htp]

/-- C10 witness: the strip for page 7 of 20 pages. -/
theorem c10_pagination_witness :
    (pageNums (generatePageNumbers 7 20 5)).Pairwise (· < ·) ∧
    (7 : Int) ∈ pageNums (generatePageNumbers 7 20 5) ∧
    (pageNums (generatePageNumbers 7 20 5)).length ≤ 5 + 2 :=
  ⟨(c10_pagination 7 20 (by decide) (by decide) (by decide)).1,
   (c10_pagination 7 20 (by decide) (by decide) (by decide)).2.2.1,
   (c10_pagination 7 20 (by decide) (by decide) (by decide)).2.2.2.1⟩

end Study19
